import Mathlib

/-!
Verification of the opensqt market-maker core against its specification.

The Go sources are shallowly embedded: `float64` prices and quantities are
modelled as exact rationals (`ℚ`), the concurrent slot map (`sync.Map`) as an
association list threaded through each operation, and each Go function below
is a direct translation of the function of the same name in
`position/super_position_manager.go` or `monitor/dynamic_grid.go`.
Logging, mutex acquisition and wall-clock timestamps are elided; every branch
that decides state or emitted orders is kept.
-/

namespace Opensqt

/-- `math.Round`: round half away from zero, as used by `roundPrice` /
`roundToDecimals` in the Go sources. -/
def goRound (x : ℚ) : ℤ :=
  if 0 ≤ x then ⌊x + 1/2⌋ else ⌈x - 1/2⌉

/-- Go `int(x)`: truncation toward zero. -/
def goTrunc (x : ℚ) : ℤ :=
  if 0 ≤ x then ⌊x⌋ else ⌈x⌉

/-- `roundPrice` (super_position_manager.go): round to `decimals` decimal
places using `math.Round`.  `roundToDecimals` in dynamic_grid.go is the
same function. -/
def roundPrice (price : ℚ) (decimals : ℕ) : ℚ :=
  (goRound (price * 10 ^ decimals) : ℚ) / 10 ^ decimals

/-- Order status constant `OrderStatusNotPlaced`. -/
def statusNotPlaced : String := "NOT_PLACED"

/-- Order status constant `OrderStatusPlaced`. -/
def statusPlaced : String := "PLACED"

/-- Order status constant `OrderStatusConfirmed`. -/
def statusConfirmed : String := "CONFIRMED"

/-- Order status constant `OrderStatusPartiallyFilled`. -/
def statusPartFilled : String := "PARTIALLY_FILLED"

/-- Order status constant `OrderStatusCanceled`. -/
def statusCanceled : String := "CANCELED"

/-- Position status constant `PositionStatusEmpty` (no position). -/
def posEmpty : String := "EMPTY"

/-- Position status constant `PositionStatusFilled` (holding a position). -/
def posFilled : String := "FILLED"

/-- Slot lock constant `SlotStatusFree`. -/
def slotFree : String := "FREE"

/-- Slot lock constant `SlotStatusPending`. -/
def slotPending : String := "PENDING"

/-- Slot lock constant `SlotStatusLocked`. -/
def slotLocked : String := "LOCKED"

/-- Order side "BUY". -/
def sideBuy : String := "BUY"

/-- Order side "SELL". -/
def sideSell : String := "SELL"

/-- Slot-price direction "down" (buy side of the grid). -/
def dirDown : String := "down"

/-- `InventorySlot`: one price-keyed unit of inventory/order state.
`OrderCreatedAt` (a wall-clock timestamp used only for logging and by the
external order cleaner) is not modelled.  Client order ids are kept as
`List Char` (ASCII tokens). -/
structure Slot where
  positionStatus : String
  positionQty : ℚ
  orderId : ℤ
  clientOID : List Char
  orderSide : String
  orderStatus : String
  orderPrice : ℚ
  orderFilledQty : ℚ
  slotStatus : String
  postOnlyFailCount : ℕ
deriving DecidableEq

/-- Fresh slot created by `getOrCreateSlot`: EMPTY position, no order,
FREE lock. -/
def defaultSlot : Slot :=
  { positionStatus := posEmpty
    positionQty := 0
    orderId := 0
    clientOID := []
    orderSide := ""
    orderStatus := statusNotPlaced
    orderPrice := 0
    orderFilledQty := 0
    slotStatus := slotFree
    postOnlyFailCount := 0 }

/-- The slot map `spm.slots` (`sync.Map` keyed by price), modelled as an
association list with unique keys; `Range` iterates in list order. -/
abbrev SlotMap := List (ℚ × Slot)

/-- Look up the slot stored at price `p`. -/
def findSlot : SlotMap → ℚ → Option Slot
  | [], _ => none
  | e :: rest, p => if e.1 = p then some e.2 else findSlot rest p

/-- Replace the slot stored at price `p` (no-op if absent, mirroring that Go
mutates an entry obtained from the map in place). -/
def setSlot : SlotMap → ℚ → Slot → SlotMap
  | [], _, _ => []
  | e :: rest, p, s => if e.1 = p then (p, s) :: rest else e :: setSlot rest p s

/-- `getOrCreateSlot`: return the existing slot for `p`, or insert a fresh
default slot. -/
def getOrCreate (m : SlotMap) (p : ℚ) : Slot × SlotMap :=
  match findSlot m p with
  | some s => (s, m)
  | none => (defaultSlot, m ++ [(p, defaultSlot)])

/-- Slot-lock status stored at price `p`, if a slot exists there. -/
def statusAt (m : SlotMap) (p : ℚ) : Option String :=
  (findSlot m p).map (fun s => s.slotStatus)

/-- The `config.Trading` fields consumed by the planning pass. -/
structure TradingConfig where
  priceInterval : ℚ
  buyWindowSize : ℕ
  sellWindowSize : ℕ
  orderQuantity : ℚ
  minOrderValue : ℚ
  orderCleanupThreshold : ℤ
deriving DecidableEq

/-- Effective order-count threshold (`AdjustOrders`): the configured
`OrderCleanupThreshold`, defaulting to 100 when not positive. -/
def effThreshold (cfg : TradingConfig) : ℤ :=
  if cfg.orderCleanupThreshold ≤ 0 then 100 else cfg.orderCleanupThreshold

/-- Effective minimum nominal order value (`AdjustOrders`): the configured
`MinOrderValue`, defaulting to 6 quote units when not positive. -/
def effMinValue (cfg : TradingConfig) : ℚ :=
  if cfg.minOrderValue ≤ 0 then 6 else cfg.minOrderValue

/-- An `OrderRequest` emitted by the planning pass. -/
structure OrderRequest where
  side : String
  price : ℚ
  quantity : ℚ
  reduceOnly : Bool
  postOnly : Bool
  clientOrderID : List Char
deriving DecidableEq

/-- An accepted `Order` returned by the execution gateway's batch call. -/
structure PlacedOrder where
  orderID : ℤ
  clientOrderID : List Char
  price : ℚ
deriving DecidableEq

/-- Inputs of the dynamic spacing calculator (`DynamicGridCalculator`):
the configured base spacing, `DynamicGrid.MinProfitRate`,
`DynamicGrid.ATRMultiplier`, and the current exchange's fee rate as returned
by `getExchangeFeeRate`. -/
structure DynCfg where
  priceInterval : ℚ
  minProfitRate : ℚ
  atrMultiplier : ℚ
  feeRate : ℚ
deriving DecidableEq

/-- `CalculateDynamicInterval` (dynamic_grid.go): spacing derived from fee
economics and volatility.  `atr` is the value returned by the ATR
calculator; a non-positive `atr` models a missing or warmed-up-empty
calculator, for which the Go code leaves `atrInterval` at zero. -/
def CalculateDynamicInterval (c : DynCfg) (priceDecimals : ℕ) (atr : ℚ)
    (currentPrice : ℚ) : ℚ :=
  let baseInterval := c.priceInterval
  let minProfitRate := if c.minProfitRate ≤ 0 then 1/1000 else c.minProfitRate
  let breakEvenInterval := currentPrice * (c.feeRate * 2 + minProfitRate)
  let atrMultiplier := if c.atrMultiplier ≤ 0 then 8/10 else c.atrMultiplier
  let atrInterval := if 0 < atr then atr * atrMultiplier else 0
  let dynamicInterval := max baseInterval (max breakEvenInterval atrInterval)
  let rounded := roundPrice dynamicInterval priceDecimals
  if rounded < baseInterval then baseInterval else rounded

/-- `findNearestGridPriceWithInterval`: round the offset from the anchor to
the nearest multiple of the effective spacing. -/
def findNearestGridPriceWithInterval (cfg : TradingConfig) (priceDecimals : ℕ)
    (anchorPrice currentPrice customInterval : ℚ) : ℚ :=
  let priceInterval := if customInterval ≤ 0 then cfg.priceInterval else customInterval
  let offset := currentPrice - anchorPrice
  let intervals := goRound (offset / priceInterval)
  let gridPrice := anchorPrice + (intervals : ℚ) * priceInterval
  roundPrice gridPrice priceDecimals

/-- `calculateSlotPricesWithInterval`: `count` slot prices starting at
`gridPrice` and stepping by the spacing, downward for direction "down" and
upward otherwise, each rounded to the price precision. -/
def calculateSlotPricesWithInterval (cfg : TradingConfig) (priceDecimals : ℕ)
    (gridPrice : ℚ) (count : ℕ) (direction : String) (customInterval : ℚ) :
    List ℚ :=
  let priceInterval := if customInterval ≤ 0 then cfg.priceInterval else customInterval
  (List.range count).map fun i =>
    let price := if direction = "down" then gridPrice - (i : ℚ) * priceInterval
      else gridPrice + (i : ℚ) * priceInterval
    roundPrice price priceDecimals

/-- ASCII digit character for a decimal digit. -/
def digitChar (d : ℕ) : Char := Char.ofNat (48 + d)

/-- Fuel-indexed helper for `natDigits`. -/
def natDigitsAux : ℕ → ℕ → List Char
  | 0, _ => []
  | _ + 1, 0 => []
  | fuel + 1, n + 1 =>
    natDigitsAux fuel ((n + 1) / 10) ++ [digitChar ((n + 1) % 10)]

/-- Decimal digit string (most significant first) of a natural number;
empty for zero.  Defined with a fuel argument (`n+1` steps always
suffice). -/
def natDigits (n : ℕ) : List Char := natDigitsAux (n + 1) n

/-- Whether a character is an ASCII decimal digit. -/
def isDigitCh (c : Char) : Bool := decide (48 ≤ c.toNat) && decide (c.toNat ≤ 57)

/-- Numeric value of a digit string (most significant first). -/
def digitsVal (cs : List Char) : ℕ :=
  cs.foldl (fun acc c => acc * 10 + (c.toNat - 48)) 0

/-- Parse a nonempty all-digit character list as a natural number. -/
def digitsToNat (cs : List Char) : Option ℕ :=
  if cs = [] then none
  else if cs.all isDigitCh then some (digitsVal cs)
  else none

/-- Split a character list on a separator character. -/
def splitOnChar (sep : Char) : List Char → List (List Char)
  | [] => [[]]
  | c :: rest =>
    let r := splitOnChar sep rest
    if c = sep then [] :: r
    else
      match r with
      | [] => [[c]]
      | g :: gs => (c :: g) :: gs

/-- Modelled from the spec: `utils.GenerateOrderID` is not under src/ (only
its callers are).  Per §6 "ClientOrderId wire format" and the source comment
on `generateClientOrderID` (format `{price_int}_{side}_{timestamp}{seq}`),
the token is `priceAsInteger` (`price × 10^priceDecimals`), an underscore,
the side flag `B`/`S`, an underscore, and a uniqueness disambiguator,
here passed in as `disamb`. -/
def generateOrderID (price : ℚ) (side : String) (decimals : ℕ)
    (disamb : List Char) : List Char :=
  natDigits (goRound (price * 10 ^ decimals)).toNat
    ++ '_' :: (if side = "BUY" then ['B'] else ['S'])
    ++ '_' :: disamb

/-- Modelled from the spec: `utils.ParseOrderID` (wrapped by
`parseClientOrderID`) is not under src/.  Per §6, parsing splits the token,
recovers `price = priceAsInteger / 10^priceDecimals` and the side from the
`B`/`S` flag, and rejects malformed tokens by returning an explicit invalid
result `(0, "", false)` rather than a best-effort price.  The broker-prefix
removal step (`utils.RemoveBrokerPrefix`) is modelled as the identity, i.e.
tokens are taken without an exchange prefix. -/
def parseOrderID (tok : List Char) (decimals : ℕ) : ℚ × String × Bool :=
  match splitOnChar '_' tok with
  | [pDigits, flag, _] =>
    match digitsToNat pDigits with
    | some n =>
      if flag = ['B'] then ((n : ℚ) / 10 ^ decimals, "BUY", true)
      else if flag = ['S'] then ((n : ℚ) / 10 ^ decimals, "SELL", true)
      else (0, "", false)
    | none => (0, "", false)
  | _ => (0, "", false)

/-- An asynchronous `OrderUpdate` event pushed by the exchange stream. -/
structure OrderUpdateEv where
  orderID : ℤ
  clientOrderID : List Char
  status : String
  executedQty : ℚ
deriving DecidableEq

/-- The venue-order-id adoption step of `OnOrderUpdate` (lines 771-781):
adopt order id, client id and side on first sight, or refresh an
out-of-sync order id. -/
def adoptOrderId (slot0 : Slot) (uOrderID : ℤ) (uClientOID : List Char)
    (side : String) : Slot :=
  if slot0.orderId = 0 then
    { slot0 with orderId := uOrderID, clientOID := uClientOID,
                 orderSide := side }
  else if slot0.orderId ≠ uOrderID then { slot0 with orderId := uOrderID }
  else slot0

/-- The CANCELED / EXPIRED / REJECTED branch of `OnOrderUpdate`
(lines 876-920): recoverable-vs-terminal handling by side and fill state,
then clearing of the order fields (`OrderSide` is retained for logging). -/
def cancelSlot (slot : Slot) (side : String) : Slot :=
  let slot1 :=
    if side = "BUY" then
      if 0 < slot.positionQty ∨ 0 < slot.orderFilledQty then
        { slot with positionStatus := posFilled, slotStatus := slotFree }
      else
        { slot with positionStatus := posEmpty, slotStatus := slotFree }
    else if side = "SELL" then
      if 0 < slot.positionQty then
        { slot with postOnlyFailCount := slot.postOnlyFailCount + 1,
                    positionStatus := posFilled, slotStatus := slotFree }
      else
        { slot with positionStatus := posEmpty, slotStatus := slotFree }
    else slot
  { slot1 with orderStatus := statusCanceled, orderId := 0,
               clientOID := [], orderFilledQty := 0 }

/-- The slot mutation performed by `OnOrderUpdate` after the event has been
routed to its slot: the stale-client-id guard, venue-order-id adoption, and
the status switch (lines 762-920 of super_position_manager.go).  Returns the
updated slot together with the amounts added to the manager's cumulative
`totalBuyQty` and `totalSellQty` counters. -/
def applyOrderUpdate (slot0 : Slot) (u : OrderUpdateEv) (side : String) :
    Slot × ℚ × ℚ :=
  if slot0.clientOID ≠ [] ∧ slot0.clientOID ≠ u.clientOrderID then
    (slot0, 0, 0)
  else
    let slot := adoptOrderId slot0 u.orderID u.clientOrderID side
    if u.status = "NEW" then
      (if slot.orderStatus = statusPlaced then
        { slot with orderStatus := statusConfirmed } else slot, 0, 0)
    else if u.status = "PARTIALLY_FILLED" ∨ u.status = "FILLED" then
      let deltaQty := if u.executedQty - slot.orderFilledQty < 0 then 0
        else u.executedQty - slot.orderFilledQty
      let slot := { slot with orderFilledQty := u.executedQty }
      if side = "BUY" then
        let slot := if 0 < deltaQty then
          { slot with positionQty := slot.positionQty + deltaQty } else slot
        let buyAdd := if 0 < deltaQty then deltaQty else 0
        if u.status = "FILLED" then
          let slot := { slot with orderStatus := statusNotPlaced,
                                  orderId := 0, clientOID := [],
                                  orderSide := "", orderFilledQty := 0 }
          let slot := if (1 : ℚ)/1000000 < slot.positionQty then
              { slot with positionStatus := posFilled }
            else { slot with positionStatus := posEmpty }
          ({ slot with slotStatus := slotFree, postOnlyFailCount := 0 },
            buyAdd, 0)
        else ({ slot with orderStatus := statusPartFilled }, buyAdd, 0)
      else
        let slot := if 0 < deltaQty then
            (let q := slot.positionQty - deltaQty
             { slot with positionQty := if q < 0 then 0 else q })
          else slot
        let sellAdd := if 0 < deltaQty then deltaQty else 0
        if u.status = "FILLED" then
          let slot := { slot with orderStatus := statusNotPlaced,
                                  orderId := 0, clientOID := [],
                                  orderSide := "", orderFilledQty := 0 }
          let slot := if (1 : ℚ)/1000000 < slot.positionQty then
              { slot with positionStatus := posFilled }
            else { slot with positionStatus := posEmpty }
          ({ slot with slotStatus := slotFree, postOnlyFailCount := 0 },
            0, sellAdd)
        else ({ slot with orderStatus := statusPartFilled }, 0, sellAdd)
    else if u.status = "CANCELED" ∨ u.status = "EXPIRED" ∨ u.status = "REJECTED" then
      (cancelSlot slot side, 0, 0)
    else (slot, 0, 0)

/-- `OnOrderUpdate`: route the event by parsing its client order id, locate
(or lazily create) the slot, and apply the status transition.  Returns the
updated map together with the cumulative-counter increments. -/
def OnOrderUpdate (priceDecimals : ℕ) (m : SlotMap) (u : OrderUpdateEv) :
    SlotMap × ℚ × ℚ :=
  match parseOrderID u.clientOrderID priceDecimals with
  | (price, side, true) =>
    let sm := getOrCreate m price
    let r := applyOrderUpdate sm.1 u side
    (setSlot sm.2 price r.1, r.2)
  | (_, _, false) => (m, 0, 0)

/-- Whether a slot carries an active order (status PLACED, CONFIRMED or
PARTIALLY_FILLED), the condition counted by `AdjustOrders` when computing
`currentOrderCount` and checked as `hasActiveOrder` in the buy loop. -/
def isActiveOrder (s : Slot) : Bool :=
  s.orderStatus == statusPlaced || s.orderStatus == statusConfirmed ||
    s.orderStatus == statusPartFilled

/-- `currentOrderCount`: number of slots holding an active order. -/
def activeOrderCount (m : SlotMap) : ℕ :=
  m.countP fun e => isActiveOrder e.2

/-- External inputs of one `AdjustOrders` pass: manager fields, signal
generator snapshots (downtrend detector, dynamic grid calculator and its ATR
value, crash detector), the margin-lockout gate, and the uniqueness
disambiguator used for generated client order ids. -/
structure PassEnv where
  priceDecimals : ℕ
  quantityDecimals : ℕ
  anchorPrice : ℚ
  marginLocked : Bool
  downtrendEnabled : Bool
  buyMultiplier : ℚ
  windowRatio : ℚ
  dynamicEnabled : Bool
  dyn : DynCfg
  atr : ℚ
  crashEnabled : Bool
  shouldOpenShort : Bool
  anchor : ℚ
  zoneMin : ℚ
  zoneMax : ℚ
  maxShortPositions : ℤ
  disamb : List Char
deriving DecidableEq

/-- Buy-size multiplier after the downtrend check (1.0 when the detector is
disabled). -/
def effBuyMultiplier (env : PassEnv) : ℚ :=
  if env.downtrendEnabled then env.buyMultiplier else 1

/-- Buy-window size after the downtrend window-ratio shrink (`AdjustOrders`
lines 359-370): `int(buyWindowSize * windowRatio)` floored at 1 when the
detector is enabled and the ratio is below 1. -/
def effBuyWindow (cfg : TradingConfig) (env : PassEnv) : ℕ :=
  if env.downtrendEnabled ∧ env.windowRatio < 1 then
    max 1 (goTrunc ((cfg.buyWindowSize : ℚ) * env.windowRatio)).toNat
  else cfg.buyWindowSize

/-- `GetCurrentPriceInterval`: dynamic spacing when enabled, else the
configured fixed spacing. -/
def effInterval (cfg : TradingConfig) (env : PassEnv) (currentPrice : ℚ) : ℚ :=
  if env.dynamicEnabled then
    CalculateDynamicInterval env.dyn env.priceDecimals env.atr currentPrice
  else cfg.priceInterval

/-- One iteration of the buy loop of `AdjustOrders` (lines 428-511): slot
lock check, active-order / empty-position / untouched-order conditions, the
order-count budget guard, the safety-buffer price check, and the minimum
nominal-value floor.  State is the slot map plus the buy orders created so
far in this pass (whose length is `buyOrdersToCreate`). -/
def buyStep (cfg : TradingConfig) (env : PassEnv) (currentPrice : ℚ)
    (allowedBuy : ℤ) (st : SlotMap × List OrderRequest) (price : ℚ) :
    SlotMap × List OrderRequest :=
  let sm := getOrCreate st.1 price
  let slot := sm.1
  let m := sm.2
  if slot.slotStatus ≠ slotFree then (m, st.2)
  else if slot.positionStatus ≠ posEmpty then (m, st.2)
  else if isActiveOrder slot = false ∧ slot.slotStatus = slotFree ∧
      slot.orderId = 0 ∧ slot.clientOID = [] ∧
      ((st.2.length : ℤ) < allowedBuy) then
    let safetyBuffer := cfg.priceInterval * (1/10)
    if currentPrice - safetyBuffer ≤ price then (m, st.2)
    else
      let quantity :=
        roundPrice (cfg.orderQuantity / price * effBuyMultiplier env)
          env.quantityDecimals
      if price * quantity < effMinValue cfg then
        (setSlot m price { slot with slotStatus := slotFree }, st.2)
      else
        (setSlot m price { slot with slotStatus := slotPending },
          st.2 ++ [{ side := "BUY", price := price, quantity := quantity,
                     reduceOnly := false,
                     postOnly := decide (slot.postOnlyFailCount < 3),
                     clientOrderID :=
                       generateOrderID price sideBuy env.priceDecimals
                         env.disamb }])
  else (m, st.2)

/-- The buy loop: fold `buyStep` over the computed slot prices. -/
def buyPhase (cfg : TradingConfig) (env : PassEnv) (currentPrice : ℚ)
    (allowedBuy : ℤ) (prices : List ℚ) (m : SlotMap) :
    SlotMap × List OrderRequest :=
  prices.foldl (buyStep cfg env currentPrice allowedBuy) (m, [])

/-- A sell candidate collected by `AdjustOrders` (lines 517-563). -/
structure SellCand where
  slotPrice : ℚ
  sellPrice : ℚ
  quantity : ℚ
  dist : ℚ
deriving DecidableEq

/-- Collect sell candidates: LONG/FREE slots with no live order, inside the
sell-window price ceiling, passing the minimum nominal-value floor. -/
def collectSellCands (cfg : TradingConfig) (env : PassEnv)
    (currentPrice interval sellWindowMaxPrice : ℚ) (m : SlotMap) :
    List SellCand :=
  m.foldl (fun acc e =>
    let slotPrice := e.1
    let slot := e.2
    if slot.positionStatus = posFilled ∧ slot.slotStatus = slotFree ∧
        slot.orderId = 0 ∧ slot.clientOID = [] then
      let sellPrice := roundPrice (slotPrice + interval) env.priceDecimals
      if sellWindowMaxPrice < slotPrice then acc
      else if effMinValue cfg ≤ sellPrice * slot.positionQty then
        acc ++ [{ slotPrice := slotPrice, sellPrice := sellPrice,
                  quantity := slot.positionQty,
                  dist := |slotPrice - currentPrice| }]
      else acc
    else acc) []

/-- Insert a sell candidate into a list sorted by ascending distance. -/
def insertByDist (c : SellCand) : List SellCand → List SellCand
  | [] => [c]
  | d :: rest =>
    if c.dist < d.dist then c :: d :: rest else d :: insertByDist c rest

/-- Sort sell candidates by ascending distance to the current price
(`sort.Slice` with `DistanceToMid <`). -/
def sortByDist (l : List SellCand) : List SellCand :=
  l.foldr insertByDist []

/-- One iteration of the sell-order creation loop (lines 586-629): budget
guard (the loop condition `sellOrdersToCreate < allowedNewSellOrders`),
slot-lock double check, position re-validation, then lock-and-emit. -/
def sellStep (env : PassEnv) (allowedSell : ℤ)
    (st : SlotMap × List OrderRequest) (c : SellCand) :
    SlotMap × List OrderRequest :=
  if (st.2.length : ℤ) < allowedSell then
    let sm := getOrCreate st.1 c.slotPrice
    let slot := sm.1
    let m := sm.2
    if slot.slotStatus ≠ slotFree then (m, st.2)
    else if slot.positionStatus ≠ posFilled ∨ slot.positionQty ≤ 0 then
      (m, st.2)
    else
      (setSlot m c.slotPrice { slot with slotStatus := slotPending },
        st.2 ++ [{ side := "SELL", price := c.sellPrice,
                   quantity := c.quantity, reduceOnly := true,
                   postOnly := decide (slot.postOnlyFailCount < 3),
                   clientOrderID :=
                     generateOrderID c.slotPrice sideSell env.priceDecimals
                       env.disamb }])
  else st

/-- The sell phase: collect candidates, sort closest-to-market first, and
emit up to the remaining budget. -/
def sellPhase (cfg : TradingConfig) (env : PassEnv)
    (currentPrice interval sellWindowMaxPrice : ℚ) (allowedSell : ℤ)
    (m : SlotMap) : SlotMap × List OrderRequest :=
  (sortByDist
      (collectSellCands cfg env currentPrice interval sellWindowMaxPrice m)
    ).foldl (sellStep env allowedSell) (m, [])

/-- A short-grid candidate (`handleShortGrid`). -/
structure ShortCand where
  slotPrice : ℚ
  quantity : ℚ
deriving DecidableEq

/-- Iteration count of the Go loop
`for price := zoneMin; price <= zoneMax; price += priceInterval` when it is
not cut short by the candidate cap.  For `interval ≤ 0` the Go loop never
terminates (which cannot arise: the effective spacing is positive); that
case is modelled as zero iterations. -/
def shortPriceCount (zoneMin zoneMax interval : ℚ) : ℕ :=
  if interval ≤ 0 ∨ zoneMax < zoneMin then 0
  else (⌊(zoneMax - zoneMin) / interval⌋ + 1).toNat

/-- One iteration of the short-candidate collection loop of
`handleShortGrid` (lines 1641-1669): cap guard (the loop condition
`len(candidates) < allowedNewShorts`), slot creation and eligibility
checks, and the minimum nominal-value floor.  Slots are not mutated here,
but missing slots are lazily created. -/
def shortCollectStep (cfg : TradingConfig) (env : PassEnv) (interval : ℚ)
    (allowedNewShorts : ℤ) (st : SlotMap × List ShortCand) (i : ℕ) :
    SlotMap × List ShortCand :=
  if (st.2.length : ℤ) < allowedNewShorts then
    let slotPrice := roundPrice (env.zoneMin + (i : ℚ) * interval)
      env.priceDecimals
    let sm := getOrCreate st.1 slotPrice
    let slot := sm.1
    let m := sm.2
    if slot.positionStatus = posEmpty ∧ slot.slotStatus = slotFree ∧
        slot.orderId = 0 ∧ slot.clientOID = [] then
      let quantity := roundPrice (cfg.orderQuantity / slotPrice)
        env.quantityDecimals
      if effMinValue cfg ≤ slotPrice * quantity then
        (m, st.2 ++ [{ slotPrice := slotPrice, quantity := quantity }])
      else (m, st.2)
    else (m, st.2)
  else st

/-- One iteration of the short-open creation loop of `handleShortGrid`
(lines 1672-1701): slot-lock double check, then lock-and-emit a
sell-to-open request (not reduce-only). -/
def shortCreateStep (env : PassEnv) (st : SlotMap × List OrderRequest)
    (c : ShortCand) : SlotMap × List OrderRequest :=
  let sm := getOrCreate st.1 c.slotPrice
  let slot := sm.1
  let m := sm.2
  if slot.slotStatus ≠ slotFree then (m, st.2)
  else
    (setSlot m c.slotPrice { slot with slotStatus := slotPending },
      st.2 ++ [{ side := "SELL", price := c.slotPrice,
                 quantity := c.quantity, reduceOnly := false,
                 postOnly := decide (slot.postOnlyFailCount < 3),
                 clientOrderID :=
                   generateOrderID c.slotPrice sideSell env.priceDecimals
                     env.disamb }])

/-- `handleShortGrid`: place sell-to-open orders inside the short zone,
bounded by the remaining order budget and the maximum-concurrent-shorts
cap.  Early-outs: non-positive budget, invalid zone, zone lower bound not
strictly above the current price, shorts cap already reached. -/
def handleShortGrid (cfg : TradingConfig) (env : PassEnv)
    (currentPrice interval : ℚ) (remaining : ℤ) (m : SlotMap) :
    SlotMap × List OrderRequest :=
  if remaining ≤ 0 then (m, [])
  else if env.anchor ≤ 0 ∨ env.zoneMin ≤ 0 then (m, [])
  else if env.zoneMin ≤ currentPrice then (m, [])
  else
    let currentShortCount : ℤ :=
      m.countP fun e => decide (e.2.positionQty < -(1/1000000))
    if env.maxShortPositions ≤ currentShortCount then (m, [])
    else
      let allowedNewShorts :=
        min (env.maxShortPositions - currentShortCount) remaining
      let n := shortPriceCount env.zoneMin env.zoneMax interval
      let collected := (List.range n).foldl
        (shortCollectStep cfg env interval allowedNewShorts) (m, [])
      collected.2.foldl (shortCreateStep env) (collected.1, [])

/-- A close-short candidate (`handleCloseShort`). -/
structure CloseCand where
  slotPrice : ℚ
  closePrice : ℚ
  quantity : ℚ
  profitRate : ℚ
deriving DecidableEq

/-- Collect close-short candidates: SHORT slots (negative position), free
and orderless, whose close price one spacing below yields at least a 0.1%
profit rate. -/
def collectCloseCands (env : PassEnv) (interval : ℚ) (m : SlotMap) :
    List CloseCand :=
  m.foldl (fun acc e =>
    let slotPrice := e.1
    let slot := e.2
    if slot.positionQty < -(1/1000000) ∧ slot.slotStatus = slotFree ∧
        slot.orderId = 0 ∧ slot.clientOID = [] then
      let closePrice := roundPrice (slotPrice - interval) env.priceDecimals
      let profitRate := (slotPrice - closePrice) / slotPrice
      if 1/1000 ≤ profitRate then
        acc ++ [{ slotPrice := slotPrice, closePrice := closePrice,
                  quantity := |slot.positionQty|, profitRate := profitRate }]
      else acc
    else acc) []

/-- Insert a close candidate into a list sorted by descending profit rate. -/
def insertByProfit (c : CloseCand) : List CloseCand → List CloseCand
  | [] => [c]
  | d :: rest =>
    if d.profitRate < c.profitRate then c :: d :: rest
    else d :: insertByProfit c rest

/-- Sort close candidates by descending profit rate. -/
def sortByProfit (l : List CloseCand) : List CloseCand :=
  l.foldr insertByProfit []

/-- One iteration of the close-short creation loop of `handleCloseShort`
(lines 1759-1801): budget break, minimum nominal-value floor, slot-lock
double check, then lock-and-emit a reduce-only buy-to-close request. -/
def closeStep (cfg : TradingConfig) (env : PassEnv) (remaining : ℤ)
    (st : SlotMap × List OrderRequest) (c : CloseCand) :
    SlotMap × List OrderRequest :=
  if remaining ≤ (st.2.length : ℤ) then st
  else if c.closePrice * c.quantity < effMinValue cfg then st
  else
    let sm := getOrCreate st.1 c.slotPrice
    let slot := sm.1
    let m := sm.2
    if slot.slotStatus ≠ slotFree then (m, st.2)
    else
      (setSlot m c.slotPrice { slot with slotStatus := slotPending },
        st.2 ++ [{ side := "BUY", price := c.closePrice,
                   quantity := c.quantity, reduceOnly := true,
                   postOnly := decide (slot.postOnlyFailCount < 3),
                   clientOrderID :=
                     generateOrderID c.slotPrice sideBuy env.priceDecimals
                       env.disamb }])

/-- `handleCloseShort`: place buy-to-close orders for existing SHORT slots,
most profitable first, bounded by the remaining budget. -/
def handleCloseShort (cfg : TradingConfig) (env : PassEnv)
    (interval : ℚ) (remaining : ℤ) (m : SlotMap) :
    SlotMap × List OrderRequest :=
  if remaining ≤ 0 then (m, [])
  else
    (sortByProfit (collectCloseCands env interval m)).foldl
      (closeStep cfg env remaining) (m, [])

/-- The global order-count budget of one pass:
`remaining = threshold - currentActiveOrderCount`, clamped to ≥ 0
(`AdjustOrders` lines 407-417). -/
def remBudget (cfg : TradingConfig) (m : SlotMap) : ℤ :=
  max (effThreshold cfg - activeOrderCount m) 0

/-- Result of the buy phase of one pass (`AdjustOrders` step 1):
`allowedNewBuyOrders` is the buy window clamped to the remaining budget. -/
def planBuyRes (cfg : TradingConfig) (env : PassEnv) (m : SlotMap)
    (currentPrice : ℚ) (slotPrices : List ℚ) : SlotMap × List OrderRequest :=
  buyPhase cfg env currentPrice
    (min (effBuyWindow cfg env : ℤ) (remBudget cfg m)) slotPrices m

/-- Result of the sell phase (`AdjustOrders` step 2): the sell quota is the
sell window clamped to the budget remaining after the new buy orders. -/
def planSellRes (cfg : TradingConfig) (env : PassEnv) (m : SlotMap)
    (currentPrice interval sellMax : ℚ) (slotPrices : List ℚ) :
    SlotMap × List OrderRequest :=
  let b := planBuyRes cfg env m currentPrice slotPrices
  sellPhase cfg env currentPrice interval sellMax
    (min (cfg.sellWindowSize : ℤ)
      (max (effThreshold cfg - activeOrderCount m - b.2.length) 0)) b.1

/-- Result of the short-grid phase (`AdjustOrders` step 3), gated on the
crash detector being enabled and signalling short entry. -/
def planShortRes (cfg : TradingConfig) (env : PassEnv) (m : SlotMap)
    (currentPrice interval sellMax : ℚ) (slotPrices : List ℚ) :
    SlotMap × List OrderRequest :=
  let b := planBuyRes cfg env m currentPrice slotPrices
  let s := planSellRes cfg env m currentPrice interval sellMax slotPrices
  if env.crashEnabled && env.shouldOpenShort then
    handleShortGrid cfg env currentPrice interval
      (remBudget cfg m - b.2.length - s.2.length) s.1
  else (s.1, [])

/-- Result of the close-short phase (`AdjustOrders` step 4). -/
def planCloseRes (cfg : TradingConfig) (env : PassEnv) (m : SlotMap)
    (currentPrice interval sellMax : ℚ) (slotPrices : List ℚ) :
    SlotMap × List OrderRequest :=
  let b := planBuyRes cfg env m currentPrice slotPrices
  let s := planSellRes cfg env m currentPrice interval sellMax slotPrices
  let sh := planShortRes cfg env m currentPrice interval sellMax slotPrices
  if env.crashEnabled then
    handleCloseShort cfg env interval
      (remBudget cfg m - b.2.length - s.2.length - sh.2.length) sh.1
  else (sh.1, [])

/-- The four phases of one pass, assembled: final slot map and the batch
`ordersToPlace` in submission order. -/
def planPhases (cfg : TradingConfig) (env : PassEnv) (m : SlotMap)
    (currentPrice interval sellMax : ℚ) (slotPrices : List ℚ) :
    SlotMap × List OrderRequest :=
  ((planCloseRes cfg env m currentPrice interval sellMax slotPrices).1,
    (planBuyRes cfg env m currentPrice slotPrices).2
      ++ (planSellRes cfg env m currentPrice interval sellMax slotPrices).2
      ++ (planShortRes cfg env m currentPrice interval sellMax slotPrices).2
      ++ (planCloseRes cfg env m currentPrice interval sellMax slotPrices).2)

/-- The planning portion of `AdjustOrders(currentPrice)` (lines 323-641):
input validation, margin-lockout gate, effective spacing and grid price,
the buy window, the global order-count budget, and the four phases (buys,
sells, short-opens, short-closes).  Returns the updated slot map and the
batch `ordersToPlace` submitted to the execution gateway. -/
def planOrders (cfg : TradingConfig) (env : PassEnv) (m : SlotMap)
    (currentPrice0 : ℚ) : SlotMap × List OrderRequest :=
  if currentPrice0 ≤ 0 then (m, [])
  else
    let currentPrice := roundPrice currentPrice0 env.priceDecimals
    if env.marginLocked then (m, [])
    else
      let bws := effBuyWindow cfg env
      let interval := effInterval cfg env currentPrice
      let gridPrice := findNearestGridPriceWithInterval cfg env.priceDecimals
        env.anchorPrice currentPrice interval
      let slotPrices := calculateSlotPricesWithInterval cfg env.priceDecimals
        gridPrice bws dirDown interval
      let sellMax := roundPrice
        (currentPrice + (cfg.sellWindowSize : ℚ) * interval) env.priceDecimals
      planPhases cfg env m currentPrice interval sellMax slotPrices

/-- One iteration of the failed-submission release loop of `AdjustOrders`
(lines 663-678): for a request absent from the accepted-order result, parse
its client order id and release the slot lock if still PENDING. -/
def relStep (d : ℕ) (placedIDs : List (List Char)) (m : SlotMap)
    (req : OrderRequest) : SlotMap :=
  if req.clientOrderID ∈ placedIDs then m
  else
    match parseOrderID req.clientOrderID d with
    | (price, _, true) =>
      let sm := getOrCreate m price
      if sm.1.slotStatus = slotPending then
        setSlot sm.2 price { sm.1 with slotStatus := slotFree }
      else sm.2
    | (_, _, false) => m

/-- The failed-submission release loop over the whole request batch. -/
def releaseFailedSlots (m : SlotMap) (d : ℕ) (reqs : List OrderRequest)
    (placedIDs : List (List Char)) : SlotMap :=
  reqs.foldl (relStep d placedIDs) m

/-- The instant-fill detection of the accepted-order loop (lines 697-704):
a BUY placement is stale if the async fill already promoted the slot
(position FILLED, order id and side cleared); a SELL placement is stale if
the fill already emptied and freed the slot. -/
def isInstantFill (slot : Slot) (side : String) : Bool :=
  if side = "BUY" then
    slot.positionStatus == posFilled && slot.orderId == 0 &&
      slot.orderSide == ""
  else if side = "SELL" then
    slot.positionStatus == posEmpty && slot.orderId == 0 &&
      slot.orderSide == "" && slot.slotStatus == slotFree
  else false

/-- Slot mutation for one accepted order (lines 693-741): detect the
instant-fill race (async fill already drove the slot to its terminal state)
and discard the stale placement result, otherwise adopt the venue order id
and transition to PLACED/LOCKED. -/
def applyPlacedOrder (slot : Slot) (o : PlacedOrder) (side : String) : Slot :=
  if isInstantFill slot side then slot
  else
    { slot with orderId := o.orderID, clientOID := o.clientOrderID,
                orderSide := side, orderStatus := statusPlaced,
                orderPrice := o.price, slotStatus := slotLocked }

/-- One iteration of the accepted-order loop (lines 680-742): route by
parsed client order id (skipping unparsable ids) and apply the slot
mutation. -/
def placeStep (d : ℕ) (m : SlotMap) (o : PlacedOrder) : SlotMap :=
  match parseOrderID o.clientOrderID d with
  | (price, side, true) =>
    let sm := getOrCreate m price
    setSlot sm.2 price (applyPlacedOrder sm.1 o side)
  | (_, _, false) => m

/-- The accepted-order loop over the gateway's result. -/
def processPlacedOrders (m : SlotMap) (d : ℕ) (placed : List PlacedOrder) :
    SlotMap :=
  placed.foldl (placeStep d) m

/-- Batch-result processing of `AdjustOrders` (lines 656-742): first release
the slots of requests missing from the accepted result, then adopt the
accepted orders. -/
def processBatchResult (m : SlotMap) (d : ℕ) (reqs : List OrderRequest)
    (placed : List PlacedOrder) : SlotMap :=
  processPlacedOrders
    (releaseFailedSlots m d reqs (placed.map fun o => o.clientOrderID)) d
    placed

/-! ### Concrete fixtures used by scenarios, counterexamples and witnesses -/

/-- Test configuration: spacing 0.001, buy/sell windows 5, order quantity
10 quote units, minimum order value 6, order-count threshold 100. -/
def cfgA : TradingConfig :=
  { priceInterval := 1/1000, buyWindowSize := 5, sellWindowSize := 5,
    orderQuantity := 10, minOrderValue := 6, orderCleanupThreshold := 100 }

/-- Scenario A dynamic-grid inputs: base spacing 0.001, minimum profit rate
0.001, ATR multiplier 0.8, fee rate 0.0002. -/
def dynA : DynCfg :=
  { priceInterval := 1/1000, minProfitRate := 1/1000, atrMultiplier := 8/10,
    feeRate := 2/10000 }

/-- A concrete disambiguator suffix for generated client order ids. -/
def disA : List Char := ['7']

/-- A malformed client-order-id token. -/
def badTok : List Char := ['j', 'u', 'n', 'k']

/-- Client order id of a buy at price 0.140 with 3 price decimals. -/
def tokBuy : List Char := generateOrderID ((140 : ℚ)/1000) sideBuy 3 disA

/-- Client order id of a sell at price 0.168 with 3 price decimals. -/
def tokSell : List Char := generateOrderID ((168 : ℚ)/1000) sideSell 3 disA

/-- A slot holding a live BUY order at 0.140 (EMPTY/LOCKED, nothing filled
yet). -/
def slotBuyLive : Slot :=
  { defaultSlot with orderId := 5, clientOID := tokBuy, orderSide := sideBuy,
                     orderStatus := statusPlaced, slotStatus := slotLocked }

/-- A slot holding a live sell-to-open order at 0.168 on an EMPTY position
(the short-grid entry situation). -/
def slotSellLive : Slot :=
  { defaultSlot with orderId := 6, clientOID := tokSell,
                     orderSide := sideSell, orderStatus := statusPlaced,
                     slotStatus := slotLocked }

/-- A FILLED buy event for `slotBuyLive` with executed quantity 50. -/
def evBuyFilled : OrderUpdateEv :=
  { orderID := 5, clientOrderID := tokBuy, status := "FILLED",
    executedQty := 50 }

/-- A FILLED sell event for `slotSellLive` with executed quantity 50. -/
def evSellFilled : OrderUpdateEv :=
  { orderID := 6, clientOrderID := tokSell, status := "FILLED",
    executedQty := 50 }

/-- Scenario D slot: LONG with `positionQty = 50`, free, no live order
recorded on the slot fields, zero fail count. -/
def slotLong50 : Slot :=
  { defaultSlot with positionStatus := posFilled, positionQty := 50 }

/-- A CANCELED event carrying `tokSell`. -/
def evCanceled : OrderUpdateEv :=
  { orderID := 6, clientOrderID := tokSell, status := "CANCELED",
    executedQty := 0 }

/-- An accepted placement result (venue order id 77). -/
def placedA : PlacedOrder :=
  { orderID := 77, clientOrderID := tokBuy, price := (140 : ℚ)/1000 }

/-- A slot already driven to the BUY terminal state by an async fill:
LONG position, order id cleared, order side cleared. -/
def slotBuyTerminal : Slot :=
  { defaultSlot with positionStatus := posFilled, positionQty := 50,
                     slotStatus := slotFree }

/-- A slot still awaiting its placement result (EMPTY/PENDING). -/
def slotAwaiting : Slot :=
  { defaultSlot with slotStatus := slotPending }

/-- Crash-detector pass environment whose short zone lies at or below the
current price 0.2 (zone lower bound 0.168). -/
def envZoneLow : PassEnv :=
  { priceDecimals := 3, quantityDecimals := 4, anchorPrice := 14/100,
    marginLocked := false, downtrendEnabled := false, buyMultiplier := 1,
    windowRatio := 1, dynamicEnabled := false, dyn := dynA, atr := 0,
    crashEnabled := true, shouldOpenShort := true, anchor := 14/100,
    zoneMin := 168/1000, zoneMax := 42/100, maxShortPositions := 10,
    disamb := disA }

/-- The request sent for the buy at 0.140 (as generated by the pass). -/
def reqBuy : OrderRequest :=
  { side := sideBuy, price := (140 : ℚ)/1000, quantity := 70,
    reduceOnly := false, postOnly := true, clientOrderID := tokBuy }

/-! ### Helper lemmas -/

theorem goRound_natCast (k : ℕ) : goRound (k : ℚ) = (k : ℤ) := by
  unfold goRound
  rw [if_pos (Nat.cast_nonneg k), Int.floor_eq_iff]
  constructor
  · push_cast; linarith
  · push_cast; linarith

theorem natDigitsAux_congr :
    ∀ f1 f2 n : ℕ, n < f1 → n < f2 → natDigitsAux f1 n = natDigitsAux f2 n := by
  intro f1
  induction f1 with
  | zero => intro f2 n h1; omega
  | succ g ih =>
    intro f2 n h1 h2
    match f2, n with
    | 0, n => omega
    | g2 + 1, 0 => rfl
    | g2 + 1, n + 1 =>
      show natDigitsAux g ((n + 1) / 10) ++ _ =
        natDigitsAux g2 ((n + 1) / 10) ++ _
      have hd : (n + 1) / 10 < n + 1 := Nat.div_lt_self (Nat.succ_pos n) (by omega)
      rw [ih g2 ((n + 1) / 10) (by omega) (by omega)]

theorem natDigits_pos (n : ℕ) (h : 0 < n) :
    natDigits n = natDigits (n / 10) ++ [digitChar (n % 10)] := by
  match n, h with
  | n + 1, _ =>
    show natDigitsAux (n + 2) (n + 1) = _
    show natDigitsAux (n + 1) ((n + 1) / 10) ++ [digitChar ((n + 1) % 10)] = _
    have hd : (n + 1) / 10 < n + 1 := Nat.div_lt_self (Nat.succ_pos n) (by omega)
    rw [natDigitsAux_congr (n + 1) ((n + 1) / 10 + 1) ((n + 1) / 10)
      (by omega) (by omega)]
    rfl

theorem digitsVal_append_singleton (xs : List Char) (c : Char) :
    digitsVal (xs ++ [c]) = digitsVal xs * 10 + (c.toNat - 48) := by
  simp [digitsVal, List.foldl_append]

theorem digitChar_toNat (d : ℕ) (h : d < 10) : (digitChar d).toNat = 48 + d := by
  interval_cases d <;> rfl

theorem isDigitCh_digitChar (d : ℕ) (h : d < 10) :
    isDigitCh (digitChar d) = true := by
  interval_cases d <;> rfl

theorem digitsVal_natDigits (n : ℕ) : digitsVal (natDigits n) = n := by
  induction n using Nat.strong_induction_on with
  | _ n ih =>
    rcases Nat.eq_zero_or_pos n with h0 | hpos
    · subst h0; rfl
    · rw [natDigits_pos n hpos, digitsVal_append_singleton,
        ih (n / 10) (Nat.div_lt_self hpos (by omega)),
        digitChar_toNat (n % 10) (Nat.mod_lt n (by omega))]
      omega

theorem natDigits_all_digit (n : ℕ) :
    ∀ c ∈ natDigits n, isDigitCh c = true := by
  induction n using Nat.strong_induction_on with
  | _ n ih =>
    rcases Nat.eq_zero_or_pos n with h0 | hpos
    · subst h0; intro c hc; cases hc
    · rw [natDigits_pos n hpos]
      intro c hc
      rcases List.mem_append.mp hc with h | h
      · exact ih (n / 10) (Nat.div_lt_self hpos (by omega)) c h
      · rcases List.mem_singleton.mp h with rfl
        exact isDigitCh_digitChar (n % 10) (Nat.mod_lt n (by omega))

theorem natDigits_ne_nil (n : ℕ) (h : 0 < n) : natDigits n ≠ [] := by
  rw [natDigits_pos n h]
  simp

theorem digitsToNat_natDigits (n : ℕ) (h : 0 < n) :
    digitsToNat (natDigits n) = some n := by
  unfold digitsToNat
  rw [if_neg (natDigits_ne_nil n h),
    if_pos (List.all_eq_true.mpr (natDigits_all_digit n)), digitsVal_natDigits]

theorem underscore_not_mem_natDigits (n : ℕ) : '_' ∉ natDigits n := by
  intro hmem
  have := natDigits_all_digit n '_' hmem
  simp [isDigitCh] at this

theorem splitOnChar_not_mem (sep : Char) :
    ∀ xs : List Char, sep ∉ xs → splitOnChar sep xs = [xs] := by
  intro xs
  induction xs with
  | nil => intro _; rfl
  | cons c rest ih =>
    intro h
    have hc : c ≠ sep := fun hcs => h (hcs ▸ List.mem_cons_self c rest)
    have hrest : sep ∉ rest := fun hm => h (List.mem_cons_of_mem c hm)
    simp only [splitOnChar]
    rw [ih hrest]
    simp [hc]

theorem splitOnChar_append (sep : Char) (ys : List Char) :
    ∀ xs : List Char, sep ∉ xs →
      splitOnChar sep (xs ++ sep :: ys) = xs :: splitOnChar sep ys := by
  intro xs
  induction xs with
  | nil =>
    intro _
    simp [splitOnChar]
  | cons c rest ih =>
    intro h
    have hc : c ≠ sep := fun hcs => h (hcs ▸ List.mem_cons_self c rest)
    have hrest : sep ∉ rest := fun hm => h (List.mem_cons_of_mem c hm)
    simp only [List.cons_append, splitOnChar, List.append_eq]
    rw [ih hrest]
    simp [hc]

/-! ### Claim theorems -/

unseal Rat.mul Rat.add Rat.inv Rat.sub in
/-- C6: with buy window 5, grid price 0.140, spacing 0.001 and price
precision 3, the slot-price list computed by the planning pass is NOT the
claimed `[0.139, 0.138, 0.137, 0.136, 0.135]`. -/
theorem C6_counterexample :
    calculateSlotPricesWithInterval cfgA 3 ((140 : ℚ)/1000) 5 dirDown (1/1000)
      ≠ [(139 : ℚ)/1000, 138/1000, 137/1000, 136/1000, 135/1000] := by
  decide

unseal Rat.mul Rat.add Rat.inv Rat.sub in
/-- C6 (amended): the buy candidate prices start AT the grid price and
descend by the spacing: with window 5, grid price 0.140, spacing 0.001 the
computed list is `[0.140, 0.139, 0.138, 0.137, 0.136]` (the buy loop then
refuses the candidates at or above `currentPrice - safetyBuffer`). -/
theorem C6_slot_prices :
    calculateSlotPricesWithInterval cfgA 3 ((140 : ℚ)/1000) 5 dirDown (1/1000)
      = [(140 : ℚ)/1000, 139/1000, 138/1000, 137/1000, 136/1000] := by
  decide

unseal Rat.mul Rat.add Rat.inv Rat.sub in
/-- C9: the dynamic spacing calculator does NOT return
`max(base, breakEven, volatility)` exactly: at price 2 the break-even
component 0.0028 dominates, but the function returns it rounded to the
price precision (0.003). -/
theorem C9_counterexample :
    CalculateDynamicInterval dynA 3 0 2 ≠
      max dynA.priceInterval
        (max (2 * (dynA.feeRate * 2 + dynA.minProfitRate)) 0) := by
  decide

unseal Rat.mul Rat.add Rat.inv Rat.sub in
/-- C9 (amended): for configured positive `minProfitRate` and
`atrMultiplier`, the dynamic spacing calculator returns
`max(base, breakEven, volatility)` rounded to the price precision and
clamped below by the base spacing, with
`breakEven = currentPrice × (2·feeRate + minProfitRate)` and
`volatility = ATR × multiplier`; in Scenario A (base 0.001, fee 0.0002,
min-profit 0.001, price 0.14, no ATR) the break-even component is 0.000196
and the result is the configured base 0.001. -/
theorem C9_dynamic_interval (c : DynCfg) (d : ℕ) (atr p : ℚ)
    (hmp : 0 < c.minProfitRate) (hmul : 0 < c.atrMultiplier) :
    CalculateDynamicInterval c d atr p =
      max c.priceInterval
        (roundPrice
          (max c.priceInterval
            (max (p * (c.feeRate * 2 + c.minProfitRate))
              (if 0 < atr then atr * c.atrMultiplier else 0))) d)
    ∧ (14 : ℚ)/100 * (dynA.feeRate * 2 + dynA.minProfitRate) = 196/1000000
    ∧ CalculateDynamicInterval dynA 3 0 (14/100) = 1/1000 := by
  refine ⟨?_, by decide, by decide⟩
  unfold CalculateDynamicInterval
  rw [if_neg (not_le.mpr hmp), if_neg (not_le.mpr hmul)]
  by_cases h : roundPrice
      (max c.priceInterval
        (max (p * (c.feeRate * 2 + c.minProfitRate))
          (if 0 < atr then atr * c.atrMultiplier else 0))) d < c.priceInterval
  · rw [if_pos h, max_eq_left h.le]
  · rw [if_neg h, max_eq_right (not_lt.mp h)]

unseal Rat.mul Rat.add Rat.inv Rat.sub in
/-- C9 witness: the amended formula instantiated at Scenario A. -/
theorem C9_witness :
    CalculateDynamicInterval dynA 3 0 (14/100) =
      max dynA.priceInterval
        (roundPrice
          (max dynA.priceInterval
            (max ((14 : ℚ)/100 * (dynA.feeRate * 2 + dynA.minProfitRate))
              (if (0 : ℚ) < 0 then 0 * dynA.atrMultiplier else 0))) 3) :=
  (C9_dynamic_interval dynA 3 0 (14/100) (by decide) (by decide)).1

unseal Rat.mul Rat.add Rat.inv Rat.sub in
/-- C2: re-delivering the identical FILLED buy event is NOT idempotent:
the first delivery resets the stored filled quantity to zero while clearing
the order fields, so the second delivery computes a fresh positive delta
and doubles `positionQty` (50 → 100) and the cumulative buy counter. -/
theorem C2_double_fill :
    (applyOrderUpdate slotBuyLive evBuyFilled sideBuy).1.positionQty = 50
    ∧ (applyOrderUpdate slotBuyLive evBuyFilled sideBuy).2.1 = 50
    ∧ (applyOrderUpdate
        (applyOrderUpdate slotBuyLive evBuyFilled sideBuy).1
        evBuyFilled sideBuy).1.positionQty = 100
    ∧ (applyOrderUpdate
        (applyOrderUpdate slotBuyLive evBuyFilled sideBuy).1
        evBuyFilled sideBuy).2.1 = 50 := by
  decide

unseal Rat.mul Rat.add Rat.inv Rat.sub in
/-- C3: a FILLED sell-to-open event with executed quantity 50 on an EMPTY
slot does NOT leave `positionQty = -50` (SHORT): the SELL fill branch
clamps the position at zero, so the slot ends EMPTY/FREE with
`positionQty = 0` and the short position is never recorded. -/
theorem C3_short_fill_clamped :
    (applyOrderUpdate slotSellLive evSellFilled sideSell).1.positionQty = 0
    ∧ (applyOrderUpdate slotSellLive evSellFilled sideSell).1.positionStatus
        = posEmpty
    ∧ (applyOrderUpdate slotSellLive evSellFilled sideSell).1.slotStatus
        = slotFree
    ∧ (applyOrderUpdate slotSellLive evSellFilled sideSell).1.positionQty
        ≠ -50 := by
  decide

/-- C10: the short grid emits no sell-to-open request unless the short
zone's lower bound is strictly above the current price: whenever
`zoneMin ≤ currentPrice`, `handleShortGrid` returns no orders (and leaves
the slot map unchanged). -/
theorem C10_short_zone_above_price (cfg : TradingConfig) (env : PassEnv)
    (currentPrice interval : ℚ) (remaining : ℤ) (m : SlotMap)
    (h : env.zoneMin ≤ currentPrice) :
    (handleShortGrid cfg env currentPrice interval remaining m).2 = [] := by
  unfold handleShortGrid
  split_ifs with h1 h2
  · rfl
  · rfl
  · rfl

unseal Rat.mul Rat.add Rat.inv Rat.sub in
/-- C10 witness: with the short zone `[0.168, 0.42]` and current price 0.2
inside it, no short-open orders are produced. -/
theorem C10_witness :
    (handleShortGrid cfgA envZoneLow ((2 : ℚ)/10) (1/1000) 50 []).2 = [] :=
  C10_short_zone_above_price cfgA envZoneLow ((2 : ℚ)/10) (1/1000) 50 []
    (by decide)

theorem isInstantFill_buy_iff (slot : Slot) :
    isInstantFill slot sideBuy = true ↔
      (slot.positionStatus = posFilled ∧ slot.orderId = 0 ∧
        slot.orderSide = "") := by
  simp [isInstantFill, sideBuy, and_assoc]

theorem isInstantFill_sell_iff (slot : Slot) :
    isInstantFill slot sideSell = true ↔
      (slot.positionStatus = posEmpty ∧ slot.orderId = 0 ∧
        slot.orderSide = "" ∧ slot.slotStatus = slotFree) := by
  simp [isInstantFill, sideSell, sideBuy, and_assoc]

/-- C8: when the accepted placement result hits a slot already driven to
its terminal state by an async fill (BUY: position FILLED with order id 0
and empty order side; SELL: position EMPTY with order id 0, empty order
side and FREE lock), the result is discarded and the slot is left entirely
unchanged; in every other case the slot adopts the returned order id and
client id and transitions to orderStatus PLACED with slotLock LOCKED. -/
theorem C8_placement_result (slot : Slot) (o : PlacedOrder) :
    ((slot.positionStatus = posFilled ∧ slot.orderId = 0 ∧
        slot.orderSide = "") →
      applyPlacedOrder slot o sideBuy = slot)
    ∧ (¬(slot.positionStatus = posFilled ∧ slot.orderId = 0 ∧
          slot.orderSide = "") →
      (applyPlacedOrder slot o sideBuy).orderId = o.orderID ∧
        (applyPlacedOrder slot o sideBuy).clientOID = o.clientOrderID ∧
        (applyPlacedOrder slot o sideBuy).orderStatus = statusPlaced ∧
        (applyPlacedOrder slot o sideBuy).slotStatus = slotLocked)
    ∧ ((slot.positionStatus = posEmpty ∧ slot.orderId = 0 ∧
          slot.orderSide = "" ∧ slot.slotStatus = slotFree) →
      applyPlacedOrder slot o sideSell = slot)
    ∧ (¬(slot.positionStatus = posEmpty ∧ slot.orderId = 0 ∧
          slot.orderSide = "" ∧ slot.slotStatus = slotFree) →
      (applyPlacedOrder slot o sideSell).orderId = o.orderID ∧
        (applyPlacedOrder slot o sideSell).clientOID = o.clientOrderID ∧
        (applyPlacedOrder slot o sideSell).orderStatus = statusPlaced ∧
        (applyPlacedOrder slot o sideSell).slotStatus = slotLocked) := by
  refine ⟨fun h => ?_, fun h => ?_, fun h => ?_, fun h => ?_⟩
  · rw [applyPlacedOrder, if_pos ((isInstantFill_buy_iff slot).mpr h)]
  · rw [applyPlacedOrder, if_neg fun ht => h ((isInstantFill_buy_iff slot).mp ht)]
    exact ⟨rfl, rfl, rfl, rfl⟩
  · rw [applyPlacedOrder, if_pos ((isInstantFill_sell_iff slot).mpr h)]
  · rw [applyPlacedOrder, if_neg fun ht => h ((isInstantFill_sell_iff slot).mp ht)]
    exact ⟨rfl, rfl, rfl, rfl⟩

unseal Rat.mul Rat.add Rat.inv Rat.sub in
/-- C8 witness: a placement result on a slot already filled by the async
path is discarded whole; on a normal pending slot it sets
PLACED/LOCKED and the venue order id. -/
theorem C8_witness :
    applyPlacedOrder slotBuyTerminal placedA sideBuy = slotBuyTerminal
    ∧ (applyPlacedOrder slotAwaiting placedA sideBuy).orderId = placedA.orderID
    ∧ (applyPlacedOrder slotAwaiting placedA sideBuy).orderStatus = statusPlaced
    ∧ (applyPlacedOrder slotAwaiting placedA sideBuy).slotStatus = slotLocked := by
  have h1 := (C8_placement_result slotBuyTerminal placedA).1 (by decide)
  have h2 := (C8_placement_result slotAwaiting placedA).2.1 (by decide)
  exact ⟨h1, h2.1, h2.2.2.1, h2.2.2.2⟩

theorem adoptOrderId_fields (slot : Slot) (uid : ℤ) (coid : List Char)
    (side : String) :
    (adoptOrderId slot uid coid side).positionStatus = slot.positionStatus ∧
    (adoptOrderId slot uid coid side).positionQty = slot.positionQty ∧
    (adoptOrderId slot uid coid side).orderFilledQty = slot.orderFilledQty ∧
    (adoptOrderId slot uid coid side).slotStatus = slot.slotStatus ∧
    (adoptOrderId slot uid coid side).postOnlyFailCount
      = slot.postOnlyFailCount := by
  unfold adoptOrderId
  split_ifs <;> exact ⟨rfl, rfl, rfl, rfl, rfl⟩

theorem applyOrderUpdate_cancel (slot : Slot) (u : OrderUpdateEv)
    (side : String)
    (hg : ¬(slot.clientOID ≠ [] ∧ slot.clientOID ≠ u.clientOrderID))
    (hst : u.status = "CANCELED" ∨ u.status = "EXPIRED" ∨
      u.status = "REJECTED") :
    applyOrderUpdate slot u side =
      (cancelSlot (adoptOrderId slot u.orderID u.clientOrderID side) side,
        0, 0) := by
  rcases hst with h | h | h <;> simp [applyOrderUpdate, if_neg hg, h]

/-- C4: terminal-vs-recoverable cancel handling on CANCELED / EXPIRED /
REJECTED events.  A BUY canceled with zero position and zero filled
quantity resets the slot to EMPTY/FREE; a BUY canceled with a positive
filled quantity promotes the slot to LONG (FILLED) with the position
retained and lock FREE; a SELL canceled on a slot with positive position
keeps the position unchanged, stays LONG, frees the lock, and increments
`postOnlyFailCount` by exactly one (Scenario D). -/
theorem C4_cancel_policy (slot : Slot) (uid : ℤ) (coid : List Char)
    (st : String) (q : ℚ)
    (hco : slot.clientOID = [] ∨ slot.clientOID = coid)
    (hst : st = "CANCELED" ∨ st = "EXPIRED" ∨ st = "REJECTED") :
    ((slot.positionQty = 0 ∧ slot.orderFilledQty = 0) →
      (applyOrderUpdate slot ⟨uid, coid, st, q⟩ sideBuy).1.positionStatus
          = posEmpty ∧
        (applyOrderUpdate slot ⟨uid, coid, st, q⟩ sideBuy).1.slotStatus
          = slotFree)
    ∧ (0 < slot.orderFilledQty →
      (applyOrderUpdate slot ⟨uid, coid, st, q⟩ sideBuy).1.positionStatus
          = posFilled ∧
        (applyOrderUpdate slot ⟨uid, coid, st, q⟩ sideBuy).1.slotStatus
          = slotFree ∧
        (applyOrderUpdate slot ⟨uid, coid, st, q⟩ sideBuy).1.positionQty
          = slot.positionQty)
    ∧ (0 < slot.positionQty →
      (applyOrderUpdate slot ⟨uid, coid, st, q⟩ sideSell).1.positionQty
          = slot.positionQty ∧
        (applyOrderUpdate slot ⟨uid, coid, st, q⟩ sideSell).1.positionStatus
          = posFilled ∧
        (applyOrderUpdate slot ⟨uid, coid, st, q⟩ sideSell).1.slotStatus
          = slotFree ∧
        (applyOrderUpdate slot ⟨uid, coid, st, q⟩ sideSell).1.postOnlyFailCount
          = slot.postOnlyFailCount + 1) := by
  have hg : ¬(slot.clientOID ≠ [] ∧ slot.clientOID ≠ coid) := by
    rcases hco with h | h <;> simp [h]
  have hcB := applyOrderUpdate_cancel slot ⟨uid, coid, st, q⟩ sideBuy hg hst
  have hcS := applyOrderUpdate_cancel slot ⟨uid, coid, st, q⟩ sideSell hg hst
  dsimp only at hcB hcS
  rw [hcB, hcS]
  obtain ⟨e1, e2, e3, e4, e5⟩ := adoptOrderId_fields slot uid coid sideBuy
  obtain ⟨f1, f2, f3, f4, f5⟩ := adoptOrderId_fields slot uid coid sideSell
  simp only [sideBuy] at e1 e2 e3 e4 e5
  simp only [sideSell] at f1 f2 f3 f4 f5
  refine ⟨fun hqf => ?_, fun hf => ?_, fun hp => ?_⟩
  · simp [cancelSlot, sideBuy, e2, e3, hqf.1, hqf.2]
  · simp [cancelSlot, sideBuy, e2, e3, hf]
  · simp [cancelSlot, sideSell, f2, f5, hp]

unseal Rat.mul Rat.add Rat.inv Rat.sub in
/-- C4 witness: Scenario D — a CANCELED sell event on a LONG slot with
`positionQty = 50` leaves LONG, quantity 50, lock FREE, and bumps the
post-only fail counter from 0 to 1. -/
theorem C4_witness :
    (applyOrderUpdate slotLong50 ⟨6, tokSell, "CANCELED", 0⟩
        sideSell).1.positionQty = slotLong50.positionQty
    ∧ (applyOrderUpdate slotLong50 ⟨6, tokSell, "CANCELED", 0⟩
        sideSell).1.positionStatus = posFilled
    ∧ (applyOrderUpdate slotLong50 ⟨6, tokSell, "CANCELED", 0⟩
        sideSell).1.slotStatus = slotFree
    ∧ (applyOrderUpdate slotLong50 ⟨6, tokSell, "CANCELED", 0⟩
        sideSell).1.postOnlyFailCount = slotLong50.postOnlyFailCount + 1 := by
  have h := (C4_cancel_policy slotLong50 6 tokSell "CANCELED" 0
    (Or.inl rfl) (Or.inl rfl)).2.2 (by decide)
  exact ⟨h.1, h.2.1, h.2.2.1, h.2.2.2⟩

/-- C5: round-trip law of the client-order-id wire format (spec-modelled:
`utils.GenerateOrderID` / `utils.ParseOrderID` are not under src/).  For
every valid price at the configured precision (`p = k / 10^d` with `k > 0`)
and every side in {BUY, SELL}, parsing the generated token returns exactly
the original price, the original side, and `valid = true`; and parsing a
malformed token returns the explicit invalid result `(0, "", false)`. -/
theorem C5_roundtrip (k d : ℕ) (p : ℚ) (side : String) (disamb : List Char)
    (hk : 0 < k) (hp : p = (k : ℚ) / 10 ^ d)
    (hside : side = sideBuy ∨ side = sideSell) (hdis : '_' ∉ disamb) :
    parseOrderID (generateOrderID p side d disamb) d = (p, side, true)
    ∧ parseOrderID badTok d = (0, "", false) := by
  constructor
  · have hpk : p * 10 ^ d = (k : ℚ) := by
      rw [hp]
      field_simp
    have hg : (goRound (p * 10 ^ d)).toNat = k := by
      rw [hpk, goRound_natCast]
      exact Int.toNat_natCast k
    have h1 : '_' ∉ natDigits k := underscore_not_mem_natDigits k
    rcases hside with rfl | rfl
    · have hfl : (if sideBuy = "BUY" then ['B'] else ['S']) = ['B'] := by
        simp [sideBuy]
      have hsplit : splitOnChar '_' (natDigits k ++ ['_', 'B'] ++ '_' :: disamb)
          = [natDigits k, ['B'], disamb] := by
        have e : natDigits k ++ ['_', 'B'] ++ '_' :: disamb
            = natDigits k ++ '_' :: (['B'] ++ '_' :: disamb) := by simp
        rw [e, splitOnChar_append '_' (['B'] ++ '_' :: disamb) (natDigits k) h1,
          splitOnChar_append '_' disamb ['B'] (by decide),
          splitOnChar_not_mem '_' disamb hdis]
      unfold generateOrderID
      rw [hg, hfl]
      unfold parseOrderID
      rw [hsplit]
      dsimp only
      rw [digitsToNat_natDigits k hk]
      simp [sideBuy, hp]
    · have hfl : (if sideSell = "BUY" then ['B'] else ['S']) = ['S'] := by
        simp [sideSell]
      have hsplit : splitOnChar '_' (natDigits k ++ ['_', 'S'] ++ '_' :: disamb)
          = [natDigits k, ['S'], disamb] := by
        have e : natDigits k ++ ['_', 'S'] ++ '_' :: disamb
            = natDigits k ++ '_' :: (['S'] ++ '_' :: disamb) := by simp
        rw [e, splitOnChar_append '_' (['S'] ++ '_' :: disamb) (natDigits k) h1,
          splitOnChar_append '_' disamb ['S'] (by decide),
          splitOnChar_not_mem '_' disamb hdis]
      unfold generateOrderID
      rw [hg, hfl]
      unfold parseOrderID
      rw [hsplit]
      dsimp only
      rw [digitsToNat_natDigits k hk]
      simp [sideSell, hp]
  · unfold parseOrderID
    rw [splitOnChar_not_mem '_' badTok (by decide)]

unseal Rat.mul Rat.add Rat.inv Rat.sub in
/-- C5 witness: the round trip at price 0.140, three price decimals, side
BUY, and a concrete disambiguator. -/
theorem C5_witness :
    parseOrderID (generateOrderID ((140 : ℚ) / 10 ^ 3) sideBuy 3 disA) 3
      = ((140 : ℚ) / 10 ^ 3, sideBuy, true)
    ∧ parseOrderID badTok 3 = (0, "", false) :=
  C5_roundtrip 140 3 ((140 : ℚ) / 10 ^ 3) sideBuy disA (by decide) rfl
    (Or.inl rfl) (by decide)

theorem foldl_len_le {σ α β : Type} (f : σ × List β → α → σ × List β)
    (cap : ℤ) (l : List α)
    (hf : ∀ st a, (f st a).2.length = st.2.length ∨
      (((st.2.length : ℤ) < cap) ∧ (f st a).2.length = st.2.length + 1)) :
    ∀ st0 : σ × List β, ((st0.2.length : ℤ)) ≤ max cap 0 →
      (((l.foldl f st0).2.length : ℤ)) ≤ max cap 0 := by
  induction l with
  | nil => intro st0 h; exact h
  | cons a rest ih =>
    intro st0 h0
    rw [List.foldl_cons]
    apply ih
    rcases hf st0 a with h | ⟨hlt, heq⟩
    · rw [h]; exact h0
    · rw [heq]; push_cast; omega

theorem foldl_len_add {σ α β : Type} (f : σ × List β → α → σ × List β)
    (l : List α)
    (hf : ∀ st a, (f st a).2.length ≤ st.2.length + 1) :
    ∀ st0 : σ × List β, (l.foldl f st0).2.length ≤ st0.2.length + l.length := by
  induction l with
  | nil => intro st0; simp
  | cons a rest ih =>
    intro st0
    rw [List.foldl_cons]
    calc (rest.foldl f (f st0 a)).2.length
        ≤ (f st0 a).2.length + rest.length := ih (f st0 a)
      _ ≤ st0.2.length + 1 + rest.length := by
          have := hf st0 a; omega
      _ = st0.2.length + (a :: rest).length := by simp; omega

theorem buyStep_len (cfg : TradingConfig) (env : PassEnv)
    (currentPrice : ℚ) (allowedBuy : ℤ) :
    ∀ (st : SlotMap × List OrderRequest) (price : ℚ),
      (buyStep cfg env currentPrice allowedBuy st price).2.length
          = st.2.length ∨
        (((st.2.length : ℤ) < allowedBuy) ∧
          (buyStep cfg env currentPrice allowedBuy st price).2.length
            = st.2.length + 1) := by
  intro st price
  simp only [buyStep]
  split_ifs with h1 h2 h3 h4 h5
  · exact Or.inl rfl
  · exact Or.inl rfl
  · exact Or.inl rfl
  · exact Or.inl rfl
  · exact Or.inr ⟨h3.2.2.2.2, by simp⟩
  · exact Or.inl rfl

theorem sellStep_len (env : PassEnv) (allowedSell : ℤ) :
    ∀ (st : SlotMap × List OrderRequest) (c : SellCand),
      (sellStep env allowedSell st c).2.length = st.2.length ∨
        (((st.2.length : ℤ) < allowedSell) ∧
          (sellStep env allowedSell st c).2.length = st.2.length + 1) := by
  intro st c
  simp only [sellStep]
  split_ifs with h1 h2 h3
  · exact Or.inl rfl
  · exact Or.inl rfl
  · exact Or.inr ⟨h1, by simp⟩
  · exact Or.inl rfl

theorem shortCollectStep_len (cfg : TradingConfig) (env : PassEnv)
    (interval : ℚ) (allowedNewShorts : ℤ) :
    ∀ (st : SlotMap × List ShortCand) (i : ℕ),
      (shortCollectStep cfg env interval allowedNewShorts st i).2.length
          = st.2.length ∨
        (((st.2.length : ℤ) < allowedNewShorts) ∧
          (shortCollectStep cfg env interval allowedNewShorts st i).2.length
            = st.2.length + 1) := by
  intro st i
  simp only [shortCollectStep]
  split_ifs with h1 h2 h3
  · exact Or.inr ⟨h1, by simp⟩
  · exact Or.inl rfl
  · exact Or.inl rfl
  · exact Or.inl rfl

theorem shortCreateStep_len (env : PassEnv) :
    ∀ (st : SlotMap × List OrderRequest) (c : ShortCand),
      (shortCreateStep env st c).2.length ≤ st.2.length + 1 := by
  intro st c
  simp only [shortCreateStep]
  split_ifs with h1
  · exact Nat.le_succ _
  · simp

theorem closeStep_len (cfg : TradingConfig) (env : PassEnv) (remaining : ℤ) :
    ∀ (st : SlotMap × List OrderRequest) (c : CloseCand),
      (closeStep cfg env remaining st c).2.length = st.2.length ∨
        (((st.2.length : ℤ) < remaining) ∧
          (closeStep cfg env remaining st c).2.length = st.2.length + 1) := by
  intro st c
  simp only [closeStep]
  split_ifs with h1 h2 h3
  · exact Or.inl rfl
  · exact Or.inl rfl
  · exact Or.inl rfl
  · exact Or.inr ⟨by omega, by simp⟩

theorem buyPhase_len (cfg : TradingConfig) (env : PassEnv) (currentPrice : ℚ)
    (allowedBuy : ℤ) (prices : List ℚ) (m : SlotMap) :
    (((buyPhase cfg env currentPrice allowedBuy prices m).2.length : ℤ))
      ≤ max allowedBuy 0 := by
  unfold buyPhase
  exact foldl_len_le _ allowedBuy prices
    (buyStep_len cfg env currentPrice allowedBuy) (m, []) (by simp)

theorem sellPhase_len (cfg : TradingConfig) (env : PassEnv)
    (currentPrice interval sellWindowMaxPrice : ℚ) (allowedSell : ℤ)
    (m : SlotMap) :
    (((sellPhase cfg env currentPrice interval sellWindowMaxPrice allowedSell
        m).2.length : ℤ)) ≤ max allowedSell 0 := by
  unfold sellPhase
  exact foldl_len_le _ allowedSell _ (sellStep_len env allowedSell) (m, [])
    (by simp)

theorem short_phase_len (cfg : TradingConfig) (env : PassEnv) (interval : ℚ)
    (allowed remaining : ℤ) (n : ℕ) (m : SlotMap) (ha : allowed ≤ remaining) :
    ((((List.range n).foldl (shortCollectStep cfg env interval allowed)
          (m, [])).2.foldl (shortCreateStep env)
        (((List.range n).foldl (shortCollectStep cfg env interval allowed)
          (m, [])).1, [])).2.length : ℤ) ≤ max remaining 0 := by
  have hcand := foldl_len_le _ allowed (List.range n)
    (shortCollectStep_len cfg env interval allowed) (m, []) (by simp)
  have hcreate := foldl_len_add (shortCreateStep env)
    ((List.range n).foldl (shortCollectStep cfg env interval allowed)
      (m, [])).2 (shortCreateStep_len env)
    (((List.range n).foldl (shortCollectStep cfg env interval allowed)
      (m, [])).1, [])
  simp only [List.length_nil] at hcreate
  omega

theorem handleShortGrid_len (cfg : TradingConfig) (env : PassEnv)
    (currentPrice interval : ℚ) (remaining : ℤ) (m : SlotMap) :
    (((handleShortGrid cfg env currentPrice interval remaining
        m).2.length : ℤ)) ≤ max remaining 0 := by
  unfold handleShortGrid
  split_ifs with h1 h2 h3
  · simp
  · simp
  · simp
  · dsimp only
    split_ifs with h4
    · simp
    · exact short_phase_len cfg env interval _ remaining _ m (min_le_right _ _)

theorem handleCloseShort_len (cfg : TradingConfig) (env : PassEnv)
    (interval : ℚ) (remaining : ℤ) (m : SlotMap) :
    (((handleCloseShort cfg env interval remaining m).2.length : ℤ))
      ≤ max remaining 0 := by
  unfold handleCloseShort
  split_ifs with h1
  · simp
  · exact foldl_len_le _ remaining _ (closeStep_len cfg env remaining) (m, [])
      (by simp)

theorem planBuyRes_len (cfg : TradingConfig) (env : PassEnv) (m : SlotMap)
    (currentPrice : ℚ) (slotPrices : List ℚ) :
    (((planBuyRes cfg env m currentPrice slotPrices).2.length : ℤ))
      ≤ max (min (effBuyWindow cfg env : ℤ) (remBudget cfg m)) 0 := by
  unfold planBuyRes
  exact buyPhase_len cfg env currentPrice _ slotPrices m

theorem planSellRes_len (cfg : TradingConfig) (env : PassEnv) (m : SlotMap)
    (currentPrice interval sellMax : ℚ) (slotPrices : List ℚ) :
    (((planSellRes cfg env m currentPrice interval sellMax
        slotPrices).2.length : ℤ))
      ≤ max (effThreshold cfg - activeOrderCount m
          - (planBuyRes cfg env m currentPrice slotPrices).2.length) 0 := by
  simp only [planSellRes]
  refine le_trans (sellPhase_len cfg env currentPrice interval sellMax _ _) ?_
  have hsw : (0 : ℤ) ≤ (cfg.sellWindowSize : ℤ) := Int.natCast_nonneg _
  omega

theorem planShortRes_len (cfg : TradingConfig) (env : PassEnv) (m : SlotMap)
    (currentPrice interval sellMax : ℚ) (slotPrices : List ℚ) :
    (((planShortRes cfg env m currentPrice interval sellMax
        slotPrices).2.length : ℤ))
      ≤ max (remBudget cfg m
          - (planBuyRes cfg env m currentPrice slotPrices).2.length
          - (planSellRes cfg env m currentPrice interval sellMax
              slotPrices).2.length) 0 := by
  simp only [planShortRes]
  split_ifs with h1
  · exact handleShortGrid_len cfg env currentPrice interval _ _
  · simp

theorem planCloseRes_len (cfg : TradingConfig) (env : PassEnv) (m : SlotMap)
    (currentPrice interval sellMax : ℚ) (slotPrices : List ℚ) :
    (((planCloseRes cfg env m currentPrice interval sellMax
        slotPrices).2.length : ℤ))
      ≤ max (remBudget cfg m
          - (planBuyRes cfg env m currentPrice slotPrices).2.length
          - (planSellRes cfg env m currentPrice interval sellMax
              slotPrices).2.length
          - (planShortRes cfg env m currentPrice interval sellMax
              slotPrices).2.length) 0 := by
  simp only [planCloseRes]
  split_ifs with h1
  · exact handleCloseShort_len cfg env interval _ _
  · simp

theorem planPhases_len (cfg : TradingConfig) (env : PassEnv) (m : SlotMap)
    (currentPrice interval sellMax : ℚ) (slotPrices : List ℚ) :
    (((planPhases cfg env m currentPrice interval sellMax
        slotPrices).2.length : ℤ))
      ≤ max (effThreshold cfg - activeOrderCount m) 0 := by
  unfold planPhases
  have hb := planBuyRes_len cfg env m currentPrice slotPrices
  have hs := planSellRes_len cfg env m currentPrice interval sellMax slotPrices
  have hsh := planShortRes_len cfg env m currentPrice interval sellMax
    slotPrices
  have hc := planCloseRes_len cfg env m currentPrice interval sellMax
    slotPrices
  have hR : remBudget cfg m = max (effThreshold cfg - activeOrderCount m) 0 :=
    rfl
  have hw : (0 : ℤ) ≤ (effBuyWindow cfg env : ℤ) := Int.natCast_nonneg _
  simp only [List.length_append]
  push_cast at *
  omega

/-- C1: for every planning pass started from a slot map with `A` active
orders (status PLACED, CONFIRMED or PARTIALLY_FILLED), the total number of
new order requests submitted in the pass — buys, sells, short-opens and
short-closes combined — is at most `max 0 (threshold - A)`, where
`threshold` is the effective configured order-count threshold
(`OrderCleanupThreshold`, defaulted to 100 when not positive). -/
theorem C1_order_budget (cfg : TradingConfig) (env : PassEnv) (m : SlotMap)
    (currentPrice0 : ℚ) :
    (((planOrders cfg env m currentPrice0).2.length : ℤ))
      ≤ max (effThreshold cfg - activeOrderCount m) 0 := by
  unfold planOrders
  split_ifs with h1 h2
  · simp
  · simp
  · exact planPhases_len cfg env m _ _ _ _

theorem findSlot_setSlot_self (m : SlotMap) (p : ℚ) (s t : Slot)
    (h : findSlot m p = some t) : findSlot (setSlot m p s) p = some s := by
  induction m with
  | nil => simp [findSlot] at h
  | cons e rest ih =>
    by_cases he : e.1 = p
    · simp [setSlot, findSlot, he]
    · simp only [findSlot, if_neg he] at h
      simp [setSlot, findSlot, he, ih h]

theorem findSlot_setSlot_ne (m : SlotMap) (p q : ℚ) (s : Slot) (h : q ≠ p) :
    findSlot (setSlot m p s) q = findSlot m q := by
  induction m with
  | nil => rfl
  | cons e rest ih =>
    by_cases he : e.1 = p
    · simp [setSlot, findSlot, he, Ne.symm h]
    · by_cases heq : e.1 = q <;> simp [setSlot, findSlot, he, heq, ih, h]

theorem findSlot_append_of_ne (m : SlotMap) (p q : ℚ) (s : Slot) (h : q ≠ p) :
    findSlot (m ++ [(p, s)]) q = findSlot m q := by
  induction m with
  | nil => simp [findSlot, Ne.symm h]
  | cons e rest ih => by_cases heq : e.1 = q <;> simp [findSlot, heq, ih]

theorem findSlot_append_self (m : SlotMap) (p : ℚ) (s : Slot)
    (h : findSlot m p = none) : findSlot (m ++ [(p, s)]) p = some s := by
  induction m with
  | nil => simp [findSlot]
  | cons e rest ih =>
    by_cases he : e.1 = p
    · simp [findSlot, he] at h
    · simp only [findSlot, if_neg he] at h
      simp [findSlot, he, ih h]

theorem findSlot_getOrCreate_ne (m : SlotMap) (p q : ℚ) (h : q ≠ p) :
    findSlot (getOrCreate m p).2 q = findSlot m q := by
  rcases hf : findSlot m p with _ | s <;>
    simp [getOrCreate, hf, findSlot_append_of_ne m p q _ h]

theorem findSlot_getOrCreate_self (m : SlotMap) (p : ℚ) :
    findSlot (getOrCreate m p).2 p = some (getOrCreate m p).1 := by
  rcases hf : findSlot m p with _ | s
  · simp [getOrCreate, hf, findSlot_append_self m p _ hf]
  · simp [getOrCreate, hf]

theorem relStep_find_ne (d : ℕ) (ids : List (List Char)) (p : ℚ)
    (m : SlotMap) (req : OrderRequest)
    (h : (parseOrderID req.clientOrderID d).1 ≠ p ∨
      (parseOrderID req.clientOrderID d).2.2 = false) :
    findSlot (relStep d ids m req) p = findSlot m p := by
  unfold relStep
  split_ifs with h1
  · rfl
  · rcases hpr : parseOrderID req.clientOrderID d with ⟨pr, sd, vb⟩
    rw [hpr] at h
    cases vb
    · rfl
    · have hpr' : pr ≠ p := by
        rcases h with h | h
        · exact h
        · simp at h
      dsimp only
      split_ifs with h2
      · rw [findSlot_setSlot_ne _ _ _ _ (Ne.symm hpr'),
          findSlot_getOrCreate_ne _ _ _ (Ne.symm hpr')]
      · exact findSlot_getOrCreate_ne _ _ _ (Ne.symm hpr')

theorem relStep_frees (d : ℕ) (ids : List (List Char)) (p : ℚ)
    (m : SlotMap) (req : OrderRequest)
    (hfail : req.clientOrderID ∉ ids)
    (hparse : (parseOrderID req.clientOrderID d).1 = p ∧
      (parseOrderID req.clientOrderID d).2.2 = true)
    (hpf : statusAt m p = some slotPending ∨ statusAt m p = some slotFree) :
    statusAt (relStep d ids m req) p = some slotFree := by
  unfold relStep
  rw [if_neg hfail]
  rcases hpr : parseOrderID req.clientOrderID d with ⟨pr, sd, vb⟩
  rw [hpr] at hparse
  obtain ⟨hpp, hvb⟩ := hparse
  subst hpp hvb
  dsimp only
  rcases hpf with hp | hp <;>
  · rcases hs : findSlot m pr with _ | s
    · rw [statusAt, hs] at hp; simp at hp
    · rw [statusAt, hs] at hp
      simp only [Option.map_some', Option.some_inj] at hp
      have hg : getOrCreate m pr = (s, m) := by simp [getOrCreate, hs]
      rw [hg]
      dsimp only
      first
      | (rw [if_pos hp, statusAt, findSlot_setSlot_self m pr _ s hs]; rfl)
      | (rw [if_neg (by rw [hp]; decide), statusAt, hs, Option.map_some', hp])

theorem relStep_pf (d : ℕ) (ids : List (List Char)) (p : ℚ)
    (m : SlotMap) (req : OrderRequest)
    (hpf : statusAt m p = some slotPending ∨ statusAt m p = some slotFree) :
    statusAt (relStep d ids m req) p = some slotPending ∨
      statusAt (relStep d ids m req) p = some slotFree := by
  by_cases h1 : req.clientOrderID ∈ ids
  · unfold relStep; rw [if_pos h1]; exact hpf
  · rcases hv : (parseOrderID req.clientOrderID d).2.2 with _ | _
    · rw [statusAt, relStep_find_ne d ids p m req (Or.inr hv)]; exact hpf
    · by_cases hpp : (parseOrderID req.clientOrderID d).1 = p
      · exact Or.inr (relStep_frees d ids p m req h1 ⟨hpp, hv⟩ hpf)
      · rw [statusAt, relStep_find_ne d ids p m req (Or.inl hpp)]; exact hpf

theorem relStep_keeps_free (d : ℕ) (ids : List (List Char)) (p : ℚ)
    (m : SlotMap) (req : OrderRequest)
    (hf : statusAt m p = some slotFree) :
    statusAt (relStep d ids m req) p = some slotFree := by
  by_cases h1 : req.clientOrderID ∈ ids
  · unfold relStep; rw [if_pos h1]; exact hf
  · rcases hv : (parseOrderID req.clientOrderID d).2.2 with _ | _
    · rw [statusAt, relStep_find_ne d ids p m req (Or.inr hv)]; exact hf
    · by_cases hpp : (parseOrderID req.clientOrderID d).1 = p
      · exact relStep_frees d ids p m req h1 ⟨hpp, hv⟩ (Or.inr hf)
      · rw [statusAt, relStep_find_ne d ids p m req (Or.inl hpp)]; exact hf

theorem rel_fold_pf (d : ℕ) (ids : List (List Char)) (p : ℚ) :
    ∀ (l : List OrderRequest) (m : SlotMap),
      (statusAt m p = some slotPending ∨ statusAt m p = some slotFree) →
      (statusAt (l.foldl (relStep d ids) m) p = some slotPending ∨
        statusAt (l.foldl (relStep d ids) m) p = some slotFree) := by
  intro l
  induction l with
  | nil => intro m h; exact h
  | cons a rest ih =>
    intro m h
    exact ih (relStep d ids m a) (relStep_pf d ids p m a h)

theorem rel_fold_free (d : ℕ) (ids : List (List Char)) (p : ℚ) :
    ∀ (l : List OrderRequest) (m : SlotMap),
      statusAt m p = some slotFree →
      statusAt (l.foldl (relStep d ids) m) p = some slotFree := by
  intro l
  induction l with
  | nil => intro m h; exact h
  | cons a rest ih =>
    intro m h
    exact ih (relStep d ids m a) (relStep_keeps_free d ids p m a h)

theorem placeStep_find_ne (d : ℕ) (p : ℚ) (m : SlotMap) (o : PlacedOrder)
    (h : (parseOrderID o.clientOrderID d).1 ≠ p ∨
      (parseOrderID o.clientOrderID d).2.2 = false) :
    findSlot (placeStep d m o) p = findSlot m p := by
  unfold placeStep
  rcases hpr : parseOrderID o.clientOrderID d with ⟨pr, sd, vb⟩
  rw [hpr] at h
  cases vb
  · rfl
  · have hpr' : pr ≠ p := by
      rcases h with h | h
      · exact h
      · simp at h
    dsimp only
    rw [findSlot_setSlot_ne _ _ _ _ (Ne.symm hpr'),
      findSlot_getOrCreate_ne _ _ _ (Ne.symm hpr')]

theorem place_fold_ne (d : ℕ) (p : ℚ) :
    ∀ (placed : List PlacedOrder) (m : SlotMap),
      (∀ o ∈ placed, (parseOrderID o.clientOrderID d).1 ≠ p ∨
        (parseOrderID o.clientOrderID d).2.2 = false) →
      findSlot (processPlacedOrders m d placed) p = findSlot m p := by
  intro placed
  induction placed with
  | nil => intro m _; rfl
  | cons o rest ih =>
    intro m h
    unfold processPlacedOrders at ih ⊢
    rw [List.foldl_cons, ih _ (fun o' ho' => h o' (List.mem_cons_of_mem o ho')),
      placeStep_find_ne d p m o (h o (List.mem_cons_self o rest))]

/-- C7: the PENDING lock never leaks on a failed submission.  If a request
of this pass parses to slot price `p`, its client order id is absent from
the gateway's accepted-order result, the slot at `p` was left PENDING by
the pass, and no accepted order routes to `p` (as guaranteed when each
accepted order is one of the pass's requests and distinct requests lock
distinct slots), then after the batch-result processing the slot at `p` is
back at FREE. -/
theorem C7_lock_release (m : SlotMap) (d : ℕ) (reqs : List OrderRequest)
    (placed : List PlacedOrder) (req : OrderRequest) (p : ℚ)
    (hmem : req ∈ reqs)
    (hfail : req.clientOrderID ∉ placed.map fun o => o.clientOrderID)
    (hparse : (parseOrderID req.clientOrderID d).1 = p ∧
      (parseOrderID req.clientOrderID d).2.2 = true)
    (hpend : statusAt m p = some slotPending)
    (hnoclash : ∀ o ∈ placed, (parseOrderID o.clientOrderID d).1 ≠ p ∨
      (parseOrderID o.clientOrderID d).2.2 = false) :
    statusAt (processBatchResult m d reqs placed) p = some slotFree := by
  obtain ⟨l1, l2, rfl⟩ := List.append_of_mem hmem
  unfold processBatchResult releaseFailedSlots
  rw [List.foldl_append, List.foldl_cons]
  have h1 := rel_fold_pf d (placed.map fun o => o.clientOrderID) p l1 m
    (Or.inl hpend)
  have h2 := relStep_frees d (placed.map fun o => o.clientOrderID) p _ req
    hfail hparse h1
  have h3 := rel_fold_free d (placed.map fun o => o.clientOrderID) p l2 _ h2
  rw [statusAt, place_fold_ne d p placed _ hnoclash]
  exact h3

unseal Rat.mul Rat.add Rat.inv Rat.sub in
/-- C7 witness: a single buy request at 0.140 whose submission fails
(empty accepted result) leaves its slot back at FREE. -/
theorem C7_witness :
    statusAt (processBatchResult [((140 : ℚ)/1000, slotAwaiting)] 3 [reqBuy]
      []) ((140 : ℚ)/1000) = some slotFree :=
  C7_lock_release [((140 : ℚ)/1000, slotAwaiting)] 3 [reqBuy] [] reqBuy
    ((140 : ℚ)/1000) (List.mem_singleton.mpr rfl) (by simp)
    (by constructor <;> decide) (by decide) (by simp)

end Opensqt
